import Mathlib

/-!
Shallow embedding of `prayterm` (src/src/lib.rs): a realtime nonblocking
terminal wrapper over crossterm.  Terminal side effects are modelled as an
explicit trace of driver commands (`Cmd`); each crossterm `execute!`/`queue!`
invocation appends the queued commands to the trace, with `Cmd.flush`
marking a flush of the output sink.  Fallibility of the driver is modelled
by an oracle `drv : Cmd → Bool` saying which commands succeed; a failed
command propagates as `Except.error` carrying the state reached so far
(no rollback, mirroring the `?` operator).
-/

set_option autoImplicit false

namespace Prayterm

/-- crossterm `style::Color` (the named driver colors plus `Rgb` and
`AnsiValue`); channels are `u8`, modelled as `Nat`. -/
inductive Color where
  | reset | black | darkGrey | red | darkRed | green | darkGreen
  | yellow | darkYellow | blue | darkBlue | magenta | darkMagenta
  | cyan | darkCyan | white | grey
  | rgb (r g b : Nat)
  | ansiValue (v : Nat)
  deriving DecidableEq, Repr

/-- trait `NopColor`: resolve to a driver-level color value. -/
class NopColor (α : Type) where
  nop : α → Color

/-- `impl NopColor for style::Color { fn nop(&self) -> style::Color { *self } }` -/
instance : NopColor Color where
  nop c := c

/-- `pub struct Rgb(pub u8, pub u8, pub u8)` -/
structure Rgb where
  c0 : Nat
  c1 : Nat
  c2 : Nat
  deriving DecidableEq, Repr

/-- `impl NopColor for Rgb`: `style::Color::Rgb{r: self.0, g: self.1, b: self.2}` -/
instance : NopColor Rgb where
  nop x := Color.rgb x.c0 x.c1 x.c2

/-- crossterm `style::Attribute` (the variants the crate uses). -/
inductive Attribute where
  | bold | italic
  deriving DecidableEq, Repr

/-- A crossterm `Event` (opaque payload; the crate never inspects it). -/
structure Event where
  code : Nat
  deriving DecidableEq, Repr

/-- Driver commands issued by the crate, in the order the source issues
them.  `flush` marks a flush of the output sink
(`execute!` = queue + flush; `queue!` queues only). -/
inductive Cmd where
  | querySize
  | enableRawMode
  | disableRawMode
  | enterAlternateScreen
  | leaveAlternateScreen
  | enableMouseCapture
  | disableMouseCapture
  | setCursorStyleDefaultUserShape
  | setCursorStyleBlinkingUnderScore
  | cursorHide
  | cursorShow
  | clearAll
  | setAttribute (a : Attribute)
  | moveTo (x y : Nat)
  | setBackgroundColor (c : Color)
  | setForegroundColor (c : Color)
  | print (s : String)
  | resetColor
  | flush
  deriving DecidableEq, Repr

/-- `pub struct PrayTerm { pub k: u16, pub w: u16, pub h: u16, pub so: Box<dyn Write> }`;
the sink `so` is modelled by the trace `out` of commands applied to it. -/
structure PrayTerm where
  k : Nat
  w : Nat
  h : Nat
  out : List Cmd
  deriving DecidableEq, Repr

/-- Apply one command to the sink: on success the command is appended to the
trace, on failure the state so far is returned as the error (`?` operator:
no rollback). -/
def execStep (drv : Cmd → Bool) (s : PrayTerm) (c : Cmd) : Except PrayTerm PrayTerm :=
  if drv c then .ok { s with out := s.out ++ [c] } else .error s

/-- Apply a list of commands in order, stopping at the first failure. -/
def runCmds (drv : Cmd → Bool) (s : PrayTerm) : List Cmd → Except PrayTerm PrayTerm
  | [] => .ok s
  | c :: cs =>
    match execStep drv s c with
    | .ok s2 => runCmds drv s2 cs
    | .error s2 => .error s2

/-- crossterm `execute!`: queue the commands, then flush. -/
def execute (drv : Cmd → Bool) (s : PrayTerm) (cs : List Cmd) : Except PrayTerm PrayTerm :=
  runCmds drv s (cs ++ [Cmd.flush])

/-- crossterm `queue!`: queue the commands without flushing. -/
def queueCmds (drv : Cmd → Bool) (s : PrayTerm) (cs : List Cmd) : Except PrayTerm PrayTerm :=
  runCmds drv s cs

/-- `PrayTerm::new(k)`: `terminal::size()?`, `enable_raw_mode()?`,
`if k & 5 != 0 { execute!(so, EnterAlternateScreen)?; }`,
`if k & 6 != 0 { execute!(so, EnableMouseCapture)?; }`,
`Ok(PrayTerm{k, w, h, so})`.  `w`, `h` are the dimensions the terminal
reports; on failure the error carries the trace of commands already
applied. -/
def PrayTerm.new (drv : Cmd → Bool) (w h : Nat) (k : Nat) : Except (List Cmd) PrayTerm :=
  let s0 : PrayTerm := ⟨k, w, h, []⟩
  match runCmds drv s0 [Cmd.querySize] with
  | .error e => .error e.out
  | .ok s1 =>
    match runCmds drv s1 [Cmd.enableRawMode] with
    | .error e => .error e.out
    | .ok s2 =>
      match (if k &&& 5 ≠ 0 then execute drv s2 [Cmd.enterAlternateScreen] else .ok s2) with
      | .error e => .error e.out
      | .ok s3 =>
        match (if k &&& 6 ≠ 0 then execute drv s3 [Cmd.enableMouseCapture] else .ok s3) with
        | .error e => .error e.out
        | .ok s4 => .ok s4

/-- `PrayTerm::begin`: `execute!(so, SetCursorStyle::DefaultUserShape, Hide, Clear(All))?`. -/
def PrayTerm.begin (drv : Cmd → Bool) (s : PrayTerm) : Except PrayTerm PrayTerm :=
  execute drv s [Cmd.setCursorStyleDefaultUserShape, Cmd.cursorHide, Cmd.clearAll]

/-- `PrayTerm::fin`: `execute!(so, SetCursorStyle::BlinkingUnderScore, Show)?`,
`if self.k & 6 != 0 { execute!(so, DisableMouseCapture)?; }`,
`if self.k & 5 != 0 { execute!(so, LeaveAlternateScreen)?; }`,
`disable_raw_mode()?`. -/
def PrayTerm.fin (drv : Cmd → Bool) (s : PrayTerm) : Except PrayTerm PrayTerm :=
  match execute drv s [Cmd.setCursorStyleBlinkingUnderScore, Cmd.cursorShow] with
  | .error e => .error e
  | .ok s1 =>
    match (if s1.k &&& 6 ≠ 0 then execute drv s1 [Cmd.disableMouseCapture] else .ok s1) with
    | .error e => .error e
    | .ok s2 =>
      match (if s2.k &&& 5 ≠ 0 then execute drv s2 [Cmd.leaveAlternateScreen] else .ok s2) with
      | .error e => .error e
      | .ok s3 => runCmds drv s3 [Cmd.disableRawMode]

/-- `PrayTerm::style(s)`: `queue!(so, SetAttribute(s))?`. -/
def PrayTerm.style (drv : Cmd → Bool) (s : PrayTerm) (a : Attribute) : Except PrayTerm PrayTerm :=
  queueCmds drv s [Cmd.setAttribute a]

/-- `let styles: Vec<Attribute> = vec![Attribute::Bold, Attribute::Italic];` -/
def styles : List Attribute := [Attribute.bold, Attribute.italic]

/-- The `for (i, s) in styles.iter().enumerate()` loop of `PrayTerm::wr`:
the Rust guard is `st & 2^(i as u16) != 0`, where `^` is bitwise XOR and
binds looser than `&`, so it parses as `((st & 2) ^ i) != 0`. -/
def wrLoop (drv : Cmd → Bool) (st : Nat) :
    List (Nat × Attribute) → PrayTerm → Except PrayTerm PrayTerm
  | [], s => .ok s
  | (i, a) :: rest, s =>
    if (st &&& 2) ^^^ i ≠ 0 then
      match PrayTerm.style drv s a with
      | .ok s2 => wrLoop drv st rest s2
      | .error s2 => .error s2
    else wrLoop drv st rest s

/-- `PrayTerm::wr(x, y, st, bg, fg, msg)`: style loop, then
`queue!(so, MoveTo(x,y), SetBackgroundColor(bg.nop()),
SetForegroundColor(fg.nop()), Print(msg), ResetColor)?`, then
`self.so.flush()?`. -/
def PrayTerm.wr {α β : Type} [NopColor α] [NopColor β] (drv : Cmd → Bool) (s : PrayTerm)
    (x y st : Nat) (bg : α) (fg : β) (msg : String) : Except PrayTerm PrayTerm :=
  match wrLoop drv st styles.enum s with
  | .error e => .error e
  | .ok s1 =>
    match queueCmds drv s1 [Cmd.moveTo x y,
        Cmd.setBackgroundColor (NopColor.nop bg), Cmd.setForegroundColor (NopColor.nop fg),
        Cmd.print msg, Cmd.resetColor] with
    | .error e => .error e
    | .ok s2 => runCmds drv s2 [Cmd.flush]

/-- Sending end of the mpsc channel (`ch` identifies the channel). -/
structure Sender where
  ch : Nat
  deriving DecidableEq, Repr

/-- Receiving end of the mpsc channel. -/
structure Receiver where
  ch : Nat
  deriving DecidableEq, Repr

/-- What the spawned closure of `prepare_thread` captures: the cloned
sender `tx` and the poll interval `ms`. -/
structure WorkerClosure where
  tx : Sender
  ms : Nat
  deriving DecidableEq, Repr

/-- `PrayTerm::prepare_thread(ms)`: `let (tx, rx) = mpsc::channel();`,
`let tx = tx.clone();` captured by the spawned closure, then
`Ok((tx, rx))` — the original sender AND the receiver are returned to the
caller.  `&self` is not mutated, so the state is returned unchanged; the
channel of this call is identified by `0`. -/
def PrayTerm.prepare_thread (s : PrayTerm) (ms : Nat) :
    PrayTerm × WorkerClosure × (Sender × Receiver) :=
  let ch : Nat := 0
  let tx : Sender := ⟨ch⟩
  let rx : Receiver := ⟨ch⟩
  let txClone : Sender := tx
  let worker : WorkerClosure := ⟨txClone, ms⟩
  (s, worker, (tx, rx))

/-- One iteration of the driver script the background worker runs against:
`pollR = none` means `event::poll` returns `Err`, `some false` a timeout,
`some true` an event ready; `readR = none` means `event::read` returns
`Err`; `sendOk = false` means `tx.send` fails (receiver dropped). -/
structure IterSpec where
  pollR : Option Bool
  readR : Option Event
  sendOk : Bool
  deriving DecidableEq, Repr

/-- The worker loop body of `prepare_thread` run against a driver script:
each `.expect(...)` panics on failure, terminating the loop and thread.
Returns the events delivered to the channel and whether the worker
terminated (panicked); an exhausted script with `false` means the loop is
still running. -/
def workerRun : List IterSpec → List Event × Bool
  | [] => ([], false)
  | it :: rest =>
    match it.pollR with
    | none => ([], true)
    | some false => workerRun rest
    | some true =>
      match it.readR with
      | none => ([], true)
      | some ev =>
        if it.sendOk then
          let r := workerRun rest
          (ev :: r.1, r.2)
        else ([], true)

/-- A worker iteration in which poll, read or send fails. -/
def iterFails (it : IterSpec) : Prop :=
  it.pollR = none ∨
  (it.pollR = some true ∧ it.readR = none) ∨
  (∃ ev, it.pollR = some true ∧ it.readR = some ev ∧ it.sendOk = false)

/-- A worker iteration in which nothing fails. -/
def iterOk (it : IterSpec) : Prop :=
  it.pollR = some false ∨
  (it.pollR = some true ∧ ∃ ev, it.readR = some ev ∧ it.sendOk = true)

/-- The events a list of successful iterations delivers. -/
def eventsOf (l : List IterSpec) : List Event :=
  l.filterMap fun it =>
    match it.pollR, it.readR with
    | some true, some ev => if it.sendOk then some ev else none
    | _, _ => none

/-- The always-succeeding driver. -/
def drvAll : Cmd → Bool := fun _ => true

/-- The attributes among a command trace, in queue order. -/
def attrsOf : List Cmd → List Attribute
  | [] => []
  | Cmd.setAttribute a :: r => a :: attrsOf r
  | _ :: r => attrsOf r

/-- The attributes a call to `wr` queues (success or failure state). -/
def attrsQueued (r : Except PrayTerm PrayTerm) : List Attribute :=
  match r with
  | .ok s => attrsOf s.out
  | .error s => attrsOf s.out

/-- Whether a command switches a terminal mode. -/
def isModeCmd : Cmd → Bool
  | Cmd.enableRawMode | Cmd.disableRawMode
  | Cmd.enterAlternateScreen | Cmd.leaveAlternateScreen
  | Cmd.enableMouseCapture | Cmd.disableMouseCapture => true
  | _ => false

/-- The mode-switching commands of a trace. -/
def modeCmds (l : List Cmd) : List Cmd := l.filter isModeCmd

/-- The teardown command matching a setup command. -/
def modeInverse : Cmd → Cmd
  | Cmd.enableRawMode => Cmd.disableRawMode
  | Cmd.enterAlternateScreen => Cmd.leaveAlternateScreen
  | Cmd.enableMouseCapture => Cmd.disableMouseCapture
  | c => c

/-- The full trace of `new` when every command succeeds. -/
def newTraceAll (k : Nat) : List Cmd :=
  [Cmd.querySize, Cmd.enableRawMode] ++
  (if k &&& 5 ≠ 0 then [Cmd.enterAlternateScreen, Cmd.flush] else []) ++
  (if k &&& 6 ≠ 0 then [Cmd.enableMouseCapture, Cmd.flush] else [])

/-- The trace `fin` appends when every command succeeds. -/
def finTraceAll (k : Nat) : List Cmd :=
  [Cmd.setCursorStyleBlinkingUnderScore, Cmd.cursorShow, Cmd.flush] ++
  (if k &&& 6 ≠ 0 then [Cmd.disableMouseCapture, Cmd.flush] else []) ++
  (if k &&& 5 ≠ 0 then [Cmd.leaveAlternateScreen, Cmd.flush] else []) ++
  [Cmd.disableRawMode]

/-- The state a call ended in, whether it succeeded or failed. -/
def stateOf : Except PrayTerm PrayTerm → PrayTerm
  | .ok s => s
  | .error e => e

/-- The fields `k`, `w`, `h` of the result agree with those of `s`,
whether the call succeeded or failed. -/
def sameKWH (s : PrayTerm) (r : Except PrayTerm PrayTerm) : Prop :=
  (stateOf r).k = s.k ∧ (stateOf r).w = s.w ∧ (stateOf r).h = s.h

/-- The attribute commands the `wr` loop queues for a given `st`
(read off from the loop over `styles.iter().enumerate()`). -/
def wrAttrCmds (st : Nat) : List Cmd :=
  (if (st &&& 2) ^^^ 0 ≠ 0 then [Cmd.setAttribute Attribute.bold] else []) ++
  (if (st &&& 2) ^^^ 1 ≠ 0 then [Cmd.setAttribute Attribute.italic] else [])

/-- A driver on which every command succeeds except entering the
alternate screen. -/
def drvNoAlt : Cmd → Bool := fun c => decide (c ≠ Cmd.enterAlternateScreen)

/-! ### Helper lemmas about `runCmds` -/

theorem runCmds_drvAll (cs : List Cmd) : ∀ s : PrayTerm,
    runCmds drvAll s cs = .ok ⟨s.k, s.w, s.h, s.out ++ cs⟩ := by
  induction cs with
  | nil => intro s; simp [runCmds]
  | cons c cs ih => intro s; simp [runCmds, execStep, drvAll, ih]

theorem runCmds_ok (drv : Cmd → Bool) (cs : List Cmd) : ∀ s s' : PrayTerm,
    runCmds drv s cs = .ok s' → s' = ⟨s.k, s.w, s.h, s.out ++ cs⟩ := by
  induction cs with
  | nil => intro s s' h; simp [runCmds] at h; simp [← h]
  | cons c cs ih =>
    intro s s' h
    simp only [runCmds, execStep] at h
    by_cases hc : drv c
    · simp [hc] at h
      have := ih _ _ h
      simp [this]
    · simp [hc] at h

theorem runCmds_error (drv : Cmd → Bool) (cs : List Cmd) : ∀ s e : PrayTerm,
    runCmds drv s cs = .error e →
    ∃ n, n < cs.length ∧ e = ⟨s.k, s.w, s.h, s.out ++ cs.take n⟩ := by
  induction cs with
  | nil => intro s e h; simp [runCmds] at h
  | cons c cs ih =>
    intro s e h
    simp only [runCmds, execStep] at h
    by_cases hc : drv c
    · simp [hc] at h
      obtain ⟨n, hn, he⟩ := ih _ _ h
      exact ⟨n + 1, by simpa using hn, by simp [he]⟩
    · simp [hc] at h
      exact ⟨0, by simp, by simp [← h]⟩

theorem runCmds_append (drv : Cmd → Bool) (l1 l2 : List Cmd) : ∀ s : PrayTerm,
    runCmds drv s (l1 ++ l2) =
      match runCmds drv s l1 with
      | .ok s1 => runCmds drv s1 l2
      | .error e => .error e := by
  induction l1 with
  | nil => intro s; simp [runCmds]
  | cons c l1 ih =>
    intro s
    simp only [List.cons_append, runCmds]
    cases execStep drv s c with
    | ok s2 => exact ih s2
    | error e => rfl

theorem runCmds_sameKWH (drv : Cmd → Bool) (s : PrayTerm) (cs : List Cmd) :
    sameKWH s (runCmds drv s cs) := by
  cases h : runCmds drv s cs with
  | ok s2 => have := runCmds_ok drv cs s s2 h; simp [sameKWH, stateOf, this]
  | error e =>
    obtain ⟨n, _, he⟩ := runCmds_error drv cs s e h
    simp [sameKWH, stateOf, he]

/-! ### Characterizations under the always-succeeding driver -/

/-- `new` under `drvAll` succeeds with the full construction trace. -/
theorem new_drvAll (w h k : Nat) :
    PrayTerm.new drvAll w h k = .ok ⟨k, w, h, newTraceAll k⟩ := by
  by_cases h5 : k &&& 5 ≠ 0 <;> by_cases h6 : k &&& 6 ≠ 0 <;>
    simp [PrayTerm.new, execute, newTraceAll, runCmds_drvAll, h5, h6]

/-- `fin` under `drvAll` succeeds and appends the full teardown trace. -/
theorem fin_drvAll (s : PrayTerm) :
    PrayTerm.fin drvAll s = .ok ⟨s.k, s.w, s.h, s.out ++ finTraceAll s.k⟩ := by
  by_cases h5 : s.k &&& 5 ≠ 0 <;> by_cases h6 : s.k &&& 6 ≠ 0 <;>
    simp [PrayTerm.fin, execute, finTraceAll, runCmds_drvAll, h5, h6]

/-! ### Lemmas about `wr` -/

theorem styles_enum_eq : styles.enum = [(0, Attribute.bold), (1, Attribute.italic)] := rfl

/-- The Italic guard `((st & 2) ^ 1) != 0` of the `wr` loop is satisfied for
every `st`: `st &&& 2` is never `1`. -/
theorem and_two_xor_one_ne (st : Nat) : (st &&& 2) ^^^ 1 ≠ 0 := by
  intro h
  rw [Nat.xor_eq_zero] at h
  have h1 : (st &&& 2) &&& 1 = 0 := by
    have h21 : (2 : Nat) &&& 1 = 0 := by decide
    rw [Nat.land_assoc, h21, Nat.and_zero]
  rw [h] at h1
  simp at h1

theorem wrLoop_drvAll (st : Nat) (s : PrayTerm) :
    wrLoop drvAll st styles.enum s = .ok ⟨s.k, s.w, s.h, s.out ++ wrAttrCmds st⟩ := by
  rw [styles_enum_eq]
  by_cases c0 : st &&& 2 = 0 <;>
    simp [wrLoop, PrayTerm.style, queueCmds, runCmds_drvAll, wrAttrCmds, c0,
      and_two_xor_one_ne st]

theorem wr_drvAll {α β : Type} [NopColor α] [NopColor β] (s : PrayTerm)
    (x y st : Nat) (bg : α) (fg : β) (msg : String) :
    PrayTerm.wr drvAll s x y st bg fg msg =
      .ok ⟨s.k, s.w, s.h, s.out ++ wrAttrCmds st ++
        [Cmd.moveTo x y, Cmd.setBackgroundColor (NopColor.nop bg),
         Cmd.setForegroundColor (NopColor.nop fg), Cmd.print msg, Cmd.resetColor, Cmd.flush]⟩ := by
  simp [PrayTerm.wr, wrLoop_drvAll, queueCmds, runCmds_drvAll]

theorem wrLoop_ok (drv : Cmd → Bool) (st : Nat) : ∀ (l : List (Nat × Attribute)) (s s' : PrayTerm),
    wrLoop drv st l s = .ok s' →
    ∃ pre, (∀ c ∈ pre, ∃ a, c = Cmd.setAttribute a) ∧ s' = ⟨s.k, s.w, s.h, s.out ++ pre⟩ := by
  intro l
  induction l with
  | nil =>
    intro s s' h
    simp [wrLoop] at h
    exact ⟨[], by simp, by simp [← h]⟩
  | cons p rest ih =>
    intro s s' h
    obtain ⟨i, a⟩ := p
    simp only [wrLoop] at h
    by_cases hc : (st &&& 2) ^^^ i ≠ 0
    · rw [if_pos hc] at h
      cases hs : PrayTerm.style drv s a with
      | error e => rw [hs] at h; simp at h
      | ok s2 =>
        rw [hs] at h
        obtain ⟨pre, hp, he⟩ := ih _ _ h
        have hs2 : s2 = ⟨s.k, s.w, s.h, s.out ++ [Cmd.setAttribute a]⟩ :=
          runCmds_ok drv _ s s2 hs
        refine ⟨Cmd.setAttribute a :: pre, ?_, ?_⟩
        · intro c hmem
          rcases List.mem_cons.mp hmem with hx | hx
          · exact ⟨a, hx⟩
          · exact hp c hx
        · simp [he, hs2]
    · rw [if_neg hc] at h
      obtain ⟨pre, hp, he⟩ := ih _ _ h
      exact ⟨pre, hp, by simp [he]⟩

theorem wrLoop_error (drv : Cmd → Bool) (st : Nat) : ∀ (l : List (Nat × Attribute)) (s e : PrayTerm),
    wrLoop drv st l s = .error e → e.k = s.k ∧ e.w = s.w ∧ e.h = s.h := by
  intro l
  induction l with
  | nil => intro s e h; simp [wrLoop] at h
  | cons p rest ih =>
    intro s e h
    obtain ⟨i, a⟩ := p
    simp only [wrLoop] at h
    by_cases hc : (st &&& 2) ^^^ i ≠ 0
    · rw [if_pos hc] at h
      cases hs : PrayTerm.style drv s a with
      | error e2 =>
        rw [hs] at h
        simp at h
        obtain ⟨n, _, he⟩ := runCmds_error drv _ s e2 hs
        subst h
        simp [he]
      | ok s2 =>
        rw [hs] at h
        have hs2 : s2 = ⟨s.k, s.w, s.h, s.out ++ [Cmd.setAttribute a]⟩ :=
          runCmds_ok drv _ s s2 hs
        have := ih _ _ h
        simp [hs2] at this
        exact this
    · rw [if_neg hc] at h
      exact ih _ _ h

theorem wr_ok_char {α β : Type} [NopColor α] [NopColor β] (drv : Cmd → Bool) (s : PrayTerm)
    (x y st : Nat) (bg : α) (fg : β) (msg : String) (s' : PrayTerm)
    (h : PrayTerm.wr drv s x y st bg fg msg = .ok s') :
    ∃ pre, (∀ c ∈ pre, ∃ a, c = Cmd.setAttribute a) ∧
      s' = ⟨s.k, s.w, s.h, s.out ++ pre ++
        [Cmd.moveTo x y, Cmd.setBackgroundColor (NopColor.nop bg),
         Cmd.setForegroundColor (NopColor.nop fg), Cmd.print msg, Cmd.resetColor, Cmd.flush]⟩ := by
  unfold PrayTerm.wr at h
  cases h1 : wrLoop drv st styles.enum s with
  | error e => rw [h1] at h; simp at h
  | ok s1 =>
    rw [h1] at h
    dsimp only at h
    cases h2 : queueCmds drv s1 [Cmd.moveTo x y,
        Cmd.setBackgroundColor (NopColor.nop bg), Cmd.setForegroundColor (NopColor.nop fg),
        Cmd.print msg, Cmd.resetColor] with
    | error e => rw [h2] at h; simp at h
    | ok s2 =>
      rw [h2] at h
      dsimp only at h
      obtain ⟨pre, hp, he1⟩ := wrLoop_ok drv st _ s s1 h1
      have he2 : s2 = ⟨s1.k, s1.w, s1.h, s1.out ++ _⟩ := runCmds_ok drv _ s1 s2 h2
      have he3 : s' = ⟨s2.k, s2.w, s2.h, s2.out ++ [Cmd.flush]⟩ := runCmds_ok drv _ s2 s' h
      refine ⟨pre, hp, ?_⟩
      subst he1 he2 he3
      simp

/-! ### Preservation of `k`, `w`, `h` -/

theorem sameKWH_shift {s s1 : PrayTerm} (h1 : s1.k = s.k ∧ s1.w = s.w ∧ s1.h = s.h)
    {r : Except PrayTerm PrayTerm} (h : sameKWH s1 r) : sameKWH s r :=
  ⟨h.1.trans h1.1, h.2.1.trans h1.2.1, h.2.2.trans h1.2.2⟩

theorem execute_sameKWH (drv : Cmd → Bool) (s : PrayTerm) (cs : List Cmd) :
    sameKWH s (execute drv s cs) :=
  runCmds_sameKWH drv s (cs ++ [Cmd.flush])

theorem begin_sameKWH (drv : Cmd → Bool) (s : PrayTerm) :
    sameKWH s (PrayTerm.begin drv s) :=
  execute_sameKWH drv s _

theorem style_sameKWH (drv : Cmd → Bool) (s : PrayTerm) (a : Attribute) :
    sameKWH s (PrayTerm.style drv s a) :=
  runCmds_sameKWH drv s [Cmd.setAttribute a]

theorem fin_sameKWH (drv : Cmd → Bool) (s : PrayTerm) : sameKWH s (PrayTerm.fin drv s) := by
  unfold PrayTerm.fin
  cases h1 : execute drv s [Cmd.setCursorStyleBlinkingUnderScore, Cmd.cursorShow] with
  | error e =>
    have hA := execute_sameKWH drv s [Cmd.setCursorStyleBlinkingUnderScore, Cmd.cursorShow]
    rw [h1] at hA
    exact hA
  | ok s1 =>
    have hA := execute_sameKWH drv s [Cmd.setCursorStyleBlinkingUnderScore, Cmd.cursorShow]
    rw [h1] at hA
    dsimp only
    have hB : sameKWH s1
        (if s1.k &&& 6 ≠ 0 then execute drv s1 [Cmd.disableMouseCapture] else .ok s1) := by
      by_cases h6 : s1.k &&& 6 ≠ 0
      · rw [if_pos h6]; exact execute_sameKWH drv s1 _
      · rw [if_neg h6]; exact ⟨rfl, rfl, rfl⟩
    cases h2 : (if s1.k &&& 6 ≠ 0 then execute drv s1 [Cmd.disableMouseCapture] else .ok s1) with
    | error e =>
      rw [h2] at hB
      exact sameKWH_shift hA hB
    | ok s2 =>
      rw [h2] at hB
      dsimp only
      have hC : sameKWH s2
          (if s2.k &&& 5 ≠ 0 then execute drv s2 [Cmd.leaveAlternateScreen] else .ok s2) := by
        by_cases h5 : s2.k &&& 5 ≠ 0
        · rw [if_pos h5]; exact execute_sameKWH drv s2 _
        · rw [if_neg h5]; exact ⟨rfl, rfl, rfl⟩
      cases h3 : (if s2.k &&& 5 ≠ 0 then execute drv s2 [Cmd.leaveAlternateScreen] else .ok s2) with
      | error e =>
        rw [h3] at hC
        exact sameKWH_shift hA (sameKWH_shift hB hC)
      | ok s3 =>
        rw [h3] at hC
        dsimp only
        exact sameKWH_shift hA (sameKWH_shift hB
          (sameKWH_shift hC (runCmds_sameKWH drv s3 [Cmd.disableRawMode])))

theorem wr_sameKWH {α β : Type} [NopColor α] [NopColor β] (drv : Cmd → Bool) (s : PrayTerm)
    (x y st : Nat) (bg : α) (fg : β) (msg : String) :
    sameKWH s (PrayTerm.wr drv s x y st bg fg msg) := by
  unfold PrayTerm.wr
  cases h1 : wrLoop drv st styles.enum s with
  | error e =>
    have h := wrLoop_error drv st _ s e h1
    exact ⟨h.1, h.2.1, h.2.2⟩
  | ok s1 =>
    obtain ⟨pre, _, he1⟩ := wrLoop_ok drv st _ s s1 h1
    have hA : s1.k = s.k ∧ s1.w = s.w ∧ s1.h = s.h := by rw [he1]; exact ⟨rfl, rfl, rfl⟩
    dsimp only
    cases h2 : queueCmds drv s1 [Cmd.moveTo x y,
        Cmd.setBackgroundColor (NopColor.nop bg), Cmd.setForegroundColor (NopColor.nop fg),
        Cmd.print msg, Cmd.resetColor] with
    | error e =>
      have hB := runCmds_sameKWH drv s1 [Cmd.moveTo x y,
        Cmd.setBackgroundColor (NopColor.nop bg), Cmd.setForegroundColor (NopColor.nop fg),
        Cmd.print msg, Cmd.resetColor]
      rw [show runCmds drv s1 _ = queueCmds drv s1 _ from rfl, h2] at hB
      exact sameKWH_shift hA hB
    | ok s2 =>
      have hB := runCmds_sameKWH drv s1 [Cmd.moveTo x y,
        Cmd.setBackgroundColor (NopColor.nop bg), Cmd.setForegroundColor (NopColor.nop fg),
        Cmd.print msg, Cmd.resetColor]
      rw [show runCmds drv s1 _ = queueCmds drv s1 _ from rfl, h2] at hB
      dsimp only
      exact sameKWH_shift hA (sameKWH_shift hB (runCmds_sameKWH drv s2 [Cmd.flush]))

/-! ### Bit-mask facts -/

theorem and_three_and_two (st : Nat) : (st &&& 3) &&& 2 = st &&& 2 := by
  have h32 : (3 : Nat) &&& 2 = 2 := by decide
  rw [Nat.land_assoc, h32]

theorem and_four_imp_five (k : Nat) (h : k &&& 4 ≠ 0) : k &&& 5 ≠ 0 := by
  intro h5
  apply h
  have h54 : (5 : Nat) &&& 4 = 4 := by decide
  have h2 : (k &&& 5) &&& 4 = k &&& 4 := by rw [Nat.land_assoc, h54]
  rw [h5] at h2
  simpa using h2.symm

theorem and_four_imp_six (k : Nat) (h : k &&& 4 ≠ 0) : k &&& 6 ≠ 0 := by
  intro h6
  apply h
  have h64 : (6 : Nat) &&& 4 = 4 := by decide
  have h2 : (k &&& 6) &&& 4 = k &&& 4 := by rw [Nat.land_assoc, h64]
  rw [h6] at h2
  simpa using h2.symm

theorem wrAttrCmds_and_three (st : Nat) : wrAttrCmds (st &&& 3) = wrAttrCmds st := by
  unfold wrAttrCmds
  rw [and_three_and_two]

/-! ### Mirror structure of construction and teardown traces -/

theorem newTrace_no_teardown (k : Nat) :
    Cmd.disableRawMode ∉ newTraceAll k ∧ Cmd.leaveAlternateScreen ∉ newTraceAll k ∧
      Cmd.disableMouseCapture ∉ newTraceAll k := by
  by_cases h5 : k &&& 5 ≠ 0 <;> by_cases h6 : k &&& 6 ≠ 0 <;>
    simp [newTraceAll, h5, h6]

theorem modeCmds_mirror (k : Nat) :
    modeCmds (finTraceAll k) = ((modeCmds (newTraceAll k)).reverse).map modeInverse := by
  by_cases h5 : k &&& 5 ≠ 0 <;> by_cases h6 : k &&& 6 ≠ 0 <;>
    simp [newTraceAll, finTraceAll, modeCmds, isModeCmd, modeInverse, h5, h6, List.filter]

theorem newTraceAll_length (k : Nat) :
    (newTraceAll k).length =
      2 + (if k &&& 5 ≠ 0 then 2 else 0) + (if k &&& 6 ≠ 0 then 2 else 0) := by
  by_cases h5 : k &&& 5 ≠ 0 <;> by_cases h6 : k &&& 6 ≠ 0 <;> simp [newTraceAll, h5, h6]

/-- Whenever `new` fails, the trace it leaves behind is a proper prefix of
the full construction trace: everything before the failing step was
applied (and stays applied), nothing after it was attempted. -/
theorem new_error_char (drv : Cmd → Bool) (w h k : Nat) (tr : List Cmd)
    (he : PrayTerm.new drv w h k = .error tr) :
    ∃ n, n < (newTraceAll k).length ∧ tr = (newTraceAll k).take n := by
  unfold PrayTerm.new at he
  dsimp only at he
  cases h1 : runCmds drv ⟨k, w, h, []⟩ [Cmd.querySize] with
  | error e =>
    rw [h1] at he
    simp only [Except.error.injEq] at he
    obtain ⟨n, hn, hee⟩ := runCmds_error drv _ _ _ h1
    have hn0 : n = 0 := by simpa using hn
    subst hn0
    refine ⟨0, ?_, ?_⟩
    · rw [newTraceAll_length]; omega
    · rw [← he, hee]; simp
  | ok s1 =>
    rw [h1] at he
    dsimp only at he
    have hs1 : s1 = ⟨k, w, h, [Cmd.querySize]⟩ := by simpa using runCmds_ok drv _ _ _ h1
    subst hs1
    cases h2 : runCmds drv ⟨k, w, h, [Cmd.querySize]⟩ [Cmd.enableRawMode] with
    | error e =>
      rw [h2] at he
      simp only [Except.error.injEq] at he
      obtain ⟨n, hn, hee⟩ := runCmds_error drv _ _ _ h2
      have hn0 : n = 0 := by simpa using hn
      subst hn0
      refine ⟨1, ?_, ?_⟩
      · rw [newTraceAll_length]; omega
      · rw [← he, hee]; simp [newTraceAll]
    | ok s2 =>
      rw [h2] at he
      dsimp only at he
      have hs2 : s2 = ⟨k, w, h, [Cmd.querySize, Cmd.enableRawMode]⟩ := by
        simpa using runCmds_ok drv _ _ _ h2
      subst hs2
      by_cases h5 : k &&& 5 ≠ 0
      · rw [if_pos h5] at he
        cases h3 : execute drv ⟨k, w, h, [Cmd.querySize, Cmd.enableRawMode]⟩
            [Cmd.enterAlternateScreen] with
        | error e =>
          rw [h3] at he
          simp only [Except.error.injEq] at he
          unfold execute at h3
          obtain ⟨n, hn, hee⟩ := runCmds_error drv _ _ _ h3
          have hn2 : n < 2 := by simpa using hn
          refine ⟨2 + n, ?_, ?_⟩
          · rw [newTraceAll_length, if_pos h5]; omega
          · rw [← he, hee]
            interval_cases n <;> simp [newTraceAll, h5]
        | ok s3 =>
          rw [h3] at he
          dsimp only at he
          have hs3 : s3 = ⟨k, w, h, [Cmd.querySize, Cmd.enableRawMode,
              Cmd.enterAlternateScreen, Cmd.flush]⟩ := by
            unfold execute at h3
            simpa using runCmds_ok drv _ _ _ h3
          subst hs3
          by_cases h6 : k &&& 6 ≠ 0
          · rw [if_pos h6] at he
            cases h4 : execute drv ⟨k, w, h, [Cmd.querySize, Cmd.enableRawMode,
                Cmd.enterAlternateScreen, Cmd.flush]⟩ [Cmd.enableMouseCapture] with
            | error e =>
              rw [h4] at he
              simp only [Except.error.injEq] at he
              unfold execute at h4
              obtain ⟨n, hn, hee⟩ := runCmds_error drv _ _ _ h4
              have hn2 : n < 2 := by simpa using hn
              refine ⟨4 + n, ?_, ?_⟩
              · rw [newTraceAll_length, if_pos h5, if_pos h6]; omega
              · rw [← he, hee]
                interval_cases n <;> simp [newTraceAll, h5, h6]
            | ok s4 =>
              rw [h4] at he
              simp at he
          · rw [if_neg h6] at he
            simp at he
      · rw [if_neg h5] at he
        dsimp only at he
        by_cases h6 : k &&& 6 ≠ 0
        · rw [if_pos h6] at he
          cases h4 : execute drv ⟨k, w, h, [Cmd.querySize, Cmd.enableRawMode]⟩
              [Cmd.enableMouseCapture] with
          | error e =>
            rw [h4] at he
            simp only [Except.error.injEq] at he
            unfold execute at h4
            obtain ⟨n, hn, hee⟩ := runCmds_error drv _ _ _ h4
            have hn2 : n < 2 := by simpa using hn
            refine ⟨2 + n, ?_, ?_⟩
            · rw [newTraceAll_length, if_pos h6]; omega
            · rw [← he, hee]
              interval_cases n <;> simp [newTraceAll, h5, h6]
          | ok s4 =>
            rw [h4] at he
            simp at he
        · rw [if_neg h6] at he
          simp at he

/-! ### Claims -/

/-- C1: the claim states that `wr` queues Bold iff bit 0 of `st` is set and
Italic iff bit 1 is set.  The code disagrees: the Rust guard
`st & 2^(i as u16) != 0` parses as `((st & 2) ^ i) != 0` (`^` is XOR and
binds looser than `&`), so at `st = 1` (bit 0 set, bit 1 clear), where the
claim demands exactly Bold, `wr` queues exactly Italic. -/
theorem claim_C1_wr_attr_bits_eval :
    attrsQueued (PrayTerm.wr drvAll ⟨2, 80, 50, []⟩ 0 0 1 Color.blue Color.yellow "A") =
      [Attribute.italic] := rfl

/-- C2 counterexample: at a concrete state and poll interval, the first
component of the pair `prepare_thread` hands the caller is the `Sender` of
the very channel the returned `Receiver` belongs to, and it is the same
sender the worker's closure cloned — so the sending end IS returned to the
caller, refuting the claim that only the receiving end is handed over. -/
theorem claim_C2_counterexample :
    (PrayTerm.prepare_thread ⟨2, 80, 50, []⟩ 16).2.2.1 = Sender.mk 0 ∧
      (PrayTerm.prepare_thread ⟨2, 80, 50, []⟩ 16).2.2.1.ch =
        (PrayTerm.prepare_thread ⟨2, 80, 50, []⟩ 16).2.2.2.ch ∧
      (PrayTerm.prepare_thread ⟨2, 80, 50, []⟩ 16).2.1.tx =
        (PrayTerm.prepare_thread ⟨2, 80, 50, []⟩ 16).2.2.1 :=
  ⟨rfl, rfl, rfl⟩

/-- C2 amended: `prepare_thread` returns BOTH ends of the channel to the
caller — the tuple `(Sender, Receiver)` — while the background worker's
closure captures a clone of the same sender (with the poll interval); the
sender is therefore shared, not retained exclusively inside the worker. -/
theorem claim_C2_both_ends_returned (s : PrayTerm) (ms : Nat) :
    (PrayTerm.prepare_thread s ms).2.2.1.ch = (PrayTerm.prepare_thread s ms).2.2.2.ch ∧
      (PrayTerm.prepare_thread s ms).2.1.tx = (PrayTerm.prepare_thread s ms).2.2.1 ∧
      (PrayTerm.prepare_thread s ms).2.1.ms = ms :=
  ⟨rfl, rfl, rfl⟩

/-- C3: for every mode_flags `k`, the mode-switching commands `fin` issues
are exactly the mode-switching commands `new` issued, in reverse order and
each replaced by its teardown counterpart (raw mode, alternate screen,
mouse capture): whatever was enabled at construction is disabled at `fin`,
in reverse order. -/
theorem claim_C3_fin_mirrors_new (k w h : Nat) :
    ∃ s s2, PrayTerm.new drvAll w h k = .ok s ∧ PrayTerm.fin drvAll s = .ok s2 ∧
      modeCmds (s2.out.drop s.out.length) = ((modeCmds s.out).reverse).map modeInverse := by
  refine ⟨⟨k, w, h, newTraceAll k⟩, ⟨k, w, h, newTraceAll k ++ finTraceAll k⟩,
    new_drvAll w h k, fin_drvAll _, ?_⟩
  simp [List.drop_left, modeCmds_mirror]

/-- C4: `new(k)` performs, in order: query size, enable raw mode,
conditionally enter alternate screen, conditionally enable mouse capture,
and on success returns the session holding `k` and the captured `w`, `h`;
on any intermediate failure the error propagates at once, the trace left
behind is a proper prefix of the full construction trace (already-performed
steps stay applied, nothing further is attempted), and no teardown command
(disable raw mode, leave alternate screen, disable mouse capture) is ever
issued — no rollback. -/
theorem claim_C4_new_order_and_no_rollback :
    (∀ w h k, PrayTerm.new drvAll w h k = .ok ⟨k, w, h, newTraceAll k⟩) ∧
    (∀ drv w h k tr, PrayTerm.new drv w h k = .error tr →
      (∃ rest, rest ≠ [] ∧ newTraceAll k = tr ++ rest) ∧
      Cmd.disableRawMode ∉ tr ∧ Cmd.leaveAlternateScreen ∉ tr ∧
        Cmd.disableMouseCapture ∉ tr) := by
  refine ⟨new_drvAll, ?_⟩
  intro drv w h k tr he
  obtain ⟨n, hn, htr⟩ := new_error_char drv w h k tr he
  constructor
  · refine ⟨(newTraceAll k).drop n, ?_, ?_⟩
    · intro hnil
      have hlen := congrArg List.length hnil
      simp [List.length_drop] at hlen
      omega
    · rw [htr, List.take_append_drop]
  · have hsub : tr ⊆ newTraceAll k := by
      rw [htr]; exact List.take_subset n _
    obtain ⟨ha, hb, hc⟩ := newTrace_no_teardown k
    exact ⟨fun hm => ha (hsub hm), fun hm => hb (hsub hm), fun hm => hc (hsub hm)⟩

/-- C4 witness: on a driver that fails exactly at entering the alternate
screen, `new` with `k = 5` stops after query-size and enable-raw-mode: the
error trace is `[querySize, enableRawMode]` (raw mode was applied and stays
applied), a nonempty remainder of the construction trace was never
attempted, and no teardown command was issued. -/
theorem claim_C4_new_order_and_no_rollback_witness :
    PrayTerm.new drvNoAlt 80 50 5 = .error [Cmd.querySize, Cmd.enableRawMode] ∧
      ((∃ rest, rest ≠ [] ∧
          newTraceAll 5 = [Cmd.querySize, Cmd.enableRawMode] ++ rest) ∧
        Cmd.disableRawMode ∉ [Cmd.querySize, Cmd.enableRawMode] ∧
        Cmd.leaveAlternateScreen ∉ [Cmd.querySize, Cmd.enableRawMode] ∧
        Cmd.disableMouseCapture ∉ [Cmd.querySize, Cmd.enableRawMode]) :=
  ⟨rfl, claim_C4_new_order_and_no_rollback.2 drvNoAlt 80 50 5
    [Cmd.querySize, Cmd.enableRawMode] rfl⟩

/-- C5: if an iteration of the background worker fails — poll fails, read
fails after a ready poll, or send fails because the receiving end was
dropped — the worker terminates at that iteration: exactly the events of
the successful prefix were delivered, the rest of the driver script is
never consulted (no further poll, read or send attempt), and nothing is
delivered after the failure. -/
theorem claim_C5_worker_stops_on_failure (pre : List IterSpec) (it : IterSpec)
    (rest : List IterSpec) (hpre : ∀ j ∈ pre, iterOk j) (hit : iterFails it) :
    workerRun (pre ++ it :: rest) = (eventsOf pre, true) := by
  induction pre with
  | nil =>
    rcases hit with hp | ⟨hp, hr⟩ | ⟨ev, hp, hr, hs⟩
    · simp [workerRun, hp, eventsOf]
    · simp [workerRun, hp, hr, eventsOf]
    · simp [workerRun, hp, hr, hs, eventsOf]
  | cons j pre ih =>
    have hj := hpre j (List.mem_cons_self j pre)
    have hrest : ∀ j2 ∈ pre, iterOk j2 := fun j2 hm => hpre j2 (List.mem_cons_of_mem j hm)
    rcases hj with hp | ⟨hp, ev, hr, hs⟩
    · simp only [List.cons_append, workerRun, hp, List.append_eq]
      rw [ih hrest]
      simp [eventsOf, hp]
    · simp only [List.cons_append, workerRun, hp, hr, hs, if_true, List.append_eq]
      rw [ih hrest]
      simp [eventsOf, hp, hr, hs]

/-- C5 witness: a concrete script — one successful delivery, then a failed
read, then another event the driver would have offered: only the first
event is delivered and the worker halts without touching the remainder. -/
theorem claim_C5_worker_stops_on_failure_witness :
    (∀ j ∈ ([⟨some true, some ⟨7⟩, true⟩] : List IterSpec), iterOk j) ∧
      iterFails ⟨some true, none, true⟩ ∧
      workerRun ([⟨some true, some ⟨7⟩, true⟩] ++
          (⟨some true, none, true⟩ : IterSpec) :: [⟨some true, some ⟨9⟩, true⟩]) =
        (eventsOf [⟨some true, some ⟨7⟩, true⟩], true) := by
  refine ⟨?_, Or.inr (Or.inl ⟨rfl, rfl⟩), ?_⟩
  · intro j hj
    simp at hj
    subst hj
    exact Or.inr ⟨rfl, ⟨7⟩, rfl, rfl⟩
  · refine claim_C5_worker_stops_on_failure _ _ _ ?_ (Or.inr (Or.inl ⟨rfl, rfl⟩))
    intro j hj
    simp at hj
    subst hj
    exact Or.inr ⟨rfl, ⟨7⟩, rfl, rfl⟩

/-- C6: which attributes `wr` queues depends only on the low two bits of
`st`: for every `st`, the attributes queued for `st` and for `st` with all
higher bits cleared (`st &&& 3`) coincide. -/
theorem claim_C6_high_bits_ignored {α β : Type} [NopColor α] [NopColor β] (s : PrayTerm)
    (x y st : Nat) (bg : α) (fg : β) (msg : String) :
    attrsQueued (PrayTerm.wr drvAll s x y st bg fg msg) =
      attrsQueued (PrayTerm.wr drvAll s x y (st &&& 3) bg fg msg) := by
  rw [wr_drvAll, wr_drvAll, wrAttrCmds_and_three]

/-- C7: every successful `wr(x, y, st, bg, fg, msg)` call appends, after
its attribute changes (a possibly-empty block of `setAttribute` commands),
exactly move-cursor-to(x,y), set background, set foreground, print msg,
reset color, in that order, and flushes the sink as the final step before
returning. -/
theorem claim_C7_wr_queue_order_and_flush {α β : Type} [NopColor α] [NopColor β]
    (drv : Cmd → Bool) (s : PrayTerm) (x y st : Nat) (bg : α) (fg : β) (msg : String)
    (s' : PrayTerm) (h : PrayTerm.wr drv s x y st bg fg msg = .ok s') :
    ∃ pre, (∀ c ∈ pre, ∃ a, c = Cmd.setAttribute a) ∧
      s'.out = s.out ++ pre ++ [Cmd.moveTo x y,
        Cmd.setBackgroundColor (NopColor.nop bg), Cmd.setForegroundColor (NopColor.nop fg),
        Cmd.print msg, Cmd.resetColor, Cmd.flush] := by
  obtain ⟨pre, hp, he⟩ := wr_ok_char drv s x y st bg fg msg s' h
  exact ⟨pre, hp, by simp [he]⟩

/-- C7 witness: the concrete call of the crate's own test
(`wr(0, 48, 3, Blue, Yellow, "ABC")`) exhibits the queued block and the
trailing flush. -/
theorem claim_C7_wr_queue_order_and_flush_witness :
    ∃ pre, (∀ c ∈ pre, ∃ a, c = Cmd.setAttribute a) ∧
      (PrayTerm.mk 2 80 50 [Cmd.setAttribute Attribute.bold, Cmd.setAttribute Attribute.italic,
        Cmd.moveTo 0 48, Cmd.setBackgroundColor Color.blue, Cmd.setForegroundColor Color.yellow,
        Cmd.print "ABC", Cmd.resetColor, Cmd.flush]).out =
      (PrayTerm.mk 2 80 50 []).out ++ pre ++ [Cmd.moveTo 0 48,
        Cmd.setBackgroundColor (NopColor.nop Color.blue),
        Cmd.setForegroundColor (NopColor.nop Color.yellow),
        Cmd.print "ABC", Cmd.resetColor, Cmd.flush] :=
  claim_C7_wr_queue_order_and_flush drvAll ⟨2, 80, 50, []⟩ 0 48 3
    Color.blue Color.yellow "ABC" _ rfl

/-- C8: resolving a named driver color through the color capability returns
the color itself, and resolving `Rgb(r, g, b)` returns the driver-level RGB
color with exactly those channels, for all 8-bit channel values; the
conversion is a pure total function. -/
theorem claim_C8_nop_resolution :
    (∀ c : Color, NopColor.nop c = c) ∧
    (∀ r g b : Nat, r < 256 → g < 256 → b < 256 →
      NopColor.nop (Rgb.mk r g b) = Color.rgb r g b) :=
  ⟨fun _ => rfl, fun _ _ _ _ _ _ => rfl⟩

/-- C8 witness: the identity on a named color and the channel-preserving
conversion on the test's `Rgb(240, 192, 32)`. -/
theorem claim_C8_nop_resolution_witness :
    NopColor.nop Color.blue = Color.blue ∧
      (240 < 256 ∧ 192 < 256 ∧ 32 < 256 ∧
        NopColor.nop (Rgb.mk 240 192 32) = Color.rgb 240 192 32) :=
  ⟨claim_C8_nop_resolution.1 Color.blue, by decide, by decide, by decide,
    claim_C8_nop_resolution.2 240 192 32 (by decide) (by decide) (by decide)⟩

/-- C9: every operation on a constructed session — `begin`, `fin`, `style`,
`wr`, `prepare_thread` — leaves the fields `k`, `w`, `h` unchanged, on
success and on failure alike, for every driver and every argument. -/
theorem claim_C9_frame {α β : Type} [NopColor α] [NopColor β] (drv : Cmd → Bool)
    (s : PrayTerm) (a : Attribute) (x y st : Nat) (bg : α) (fg : β)
    (msg : String) (ms : Nat) :
    sameKWH s (PrayTerm.begin drv s) ∧ sameKWH s (PrayTerm.fin drv s) ∧
      sameKWH s (PrayTerm.style drv s a) ∧
      sameKWH s (PrayTerm.wr drv s x y st bg fg msg) ∧
      (PrayTerm.prepare_thread s ms).1 = s :=
  ⟨begin_sameKWH drv s, fin_sameKWH drv s, style_sameKWH drv s a,
    wr_sameKWH drv s x y st bg fg msg, rfl⟩

/-- C10: the alternate-screen mask is `k &&& 5` and the mouse mask is
`k &&& 6`; they overlap on bit 2, so for every `k` with bit 2 set `new`
both enters the alternate screen and enables mouse capture (even with bits
0 and 1 clear), and `fin` disables both. -/
theorem claim_C10_mask_overlap_bit_two (w h k : Nat) (h4 : k &&& 4 ≠ 0) :
    (k &&& 5 ≠ 0 ∧ k &&& 6 ≠ 0) ∧
    ∃ s s2, PrayTerm.new drvAll w h k = .ok s ∧
      Cmd.enterAlternateScreen ∈ s.out ∧ Cmd.enableMouseCapture ∈ s.out ∧
      PrayTerm.fin drvAll s = .ok s2 ∧
      Cmd.disableMouseCapture ∈ s2.out ∧ Cmd.leaveAlternateScreen ∈ s2.out := by
  have h5 := and_four_imp_five k h4
  have h6 := and_four_imp_six k h4
  refine ⟨⟨h5, h6⟩, ⟨k, w, h, newTraceAll k⟩, ⟨k, w, h, newTraceAll k ++ finTraceAll k⟩,
    new_drvAll w h k, ?_, ?_, fin_drvAll _, ?_, ?_⟩ <;>
    simp [newTraceAll, finTraceAll, h5, h6]

/-- C10 witness: at `k = 4` (bit 2 set, bits 0 and 1 clear) both modes are
entered by `new` and torn down by `fin`. -/
theorem claim_C10_mask_overlap_bit_two_witness :
    ((4 : Nat) &&& 4 ≠ 0) ∧
      (((4 : Nat) &&& 5 ≠ 0 ∧ (4 : Nat) &&& 6 ≠ 0) ∧
      ∃ s s2, PrayTerm.new drvAll 80 50 4 = .ok s ∧
        Cmd.enterAlternateScreen ∈ s.out ∧ Cmd.enableMouseCapture ∈ s.out ∧
        PrayTerm.fin drvAll s = .ok s2 ∧
        Cmd.disableMouseCapture ∈ s2.out ∧ Cmd.leaveAlternateScreen ∈ s2.out) :=
  ⟨by decide, claim_C10_mask_overlap_bit_two 80 50 4 (by decide)⟩

end Prayterm
